import Mathlib

/-!
Verification of the webull reporting scripts: a shallow embedding of the
amount formatter, credential loader, response normalizer, field reconciler,
held-position filters, pagination loop, dual-sink logger and the output-file
lifecycle of the `main` routines, together with theorems settling the
specification's claims about them.
-/

set_option maxRecDepth 4000

/-- Model of the Python values that flow through the scripts: `None`,
`int`, `float` (modelled exactly as a rational) and `str`. -/
inductive PyVal where
  | none : PyVal
  | int (n : Int) : PyVal
  | float (q : Rat) : PyVal
  | str (s : String) : PyVal
deriving DecidableEq, Repr

/-- Decimal digits of `n`, least significant first, driven by explicit fuel
so that the definition is structural and kernel-evaluable. -/
def natDigitsRevAux : Nat → Nat → List Char
  | 0, _ => []
  | fuel + 1, n => if n = 0 then [] else Nat.digitChar (n % 10) :: natDigitsRevAux fuel (n / 10)

/-- Decimal digits of `n`, least significant first (`[]` for `0`). -/
def natDigitsRev (n : Nat) : List Char := natDigitsRevAux n n

/-- Insert `,` before a digit once three digits have been emitted; used on a
least-significant-first digit list, embedding the `,` option of Python
format specs. -/
def commaAux (k : Nat) : List Char → List Char
  | [] => []
  | c :: cs => if k = 3 then ',' :: c :: commaAux 1 cs else c :: commaAux (k + 1) cs

/-- Decimal rendering of a natural number with thousands separators. -/
def commaDigits (m : Nat) : List Char :=
  if m = 0 then ['0'] else (commaAux 0 (natDigitsRev m)).reverse

/-- Plain decimal rendering of a natural number, no separators. -/
def natChars (m : Nat) : List Char :=
  if m = 0 then ['0'] else (natDigitsRev m).reverse

/-- Embedding of Python `str(int_value)`: optional sign, plain digits. -/
def intPlain (n : Int) : String :=
  String.mk ((if n < 0 then ['-'] else []) ++ natChars n.natAbs)

/-- Embedding of Python `f"{n:,}"` on an integer: optional sign, digits
grouped in threes by commas. -/
def formatInt (n : Int) : String :=
  String.mk ((if n < 0 then ['-'] else []) ++ commaDigits n.natAbs)

/-- Truncation toward zero, embedding Python `int()` applied to a number. -/
def ratTrunc (q : Rat) : Int := Int.tdiv q.num q.den

/-- Absolute value of a rational (kernel-evaluable form). -/
def ratAbs (q : Rat) : Rat := if q.num < 0 then -q else q

/-- `|q| * 100` rounded to the nearest integer, ties to even, embedding the
rounding of Python `.2f` float formatting (computed on the numerator and
denominator so the kernel can evaluate it). -/
def centsOf (q : Rat) : Nat :=
  let a := 100 * q.num.natAbs
  let f := a / q.den
  let r := a % q.den
  if 2 * r > q.den then f + 1
  else if 2 * r < q.den then f
  else if f % 2 = 0 then f else f + 1

/-- Character-level rendering of Python `f"{q:,.2f}"`: sign, comma-grouped
integer part, a dot, exactly two fraction digits. -/
def float2Chars (q : Rat) : List Char :=
  let m := centsOf q
  (if q < 0 then ['-'] else []) ++ commaDigits (m / 100) ++
    ['.', Nat.digitChar (m / 10 % 10), Nat.digitChar (m % 10)]

/-- Embedding of Python `f"{q:,.2f}"`. -/
def formatFloat2 (q : Rat) : String := String.mk (float2Chars q)

/-- Numeric value of a digit list (most significant first). -/
def digitsVal (ds : List Char) : Nat :=
  ds.foldl (fun acc c => acc * 10 + (c.toNat - '0'.toNat)) 0

/-- Consume an optional leading sign, returning whether it was `-`. -/
def takeSign : List Char → Bool × List Char
  | '-' :: t => (true, t)
  | '+' :: t => (false, t)
  | t => (false, t)

/-- Assemble a rational from sign, integer digits, fraction digits and a
signed decimal exponent: the mantissa digits scaled by a power of ten,
built with `mkRat` so the kernel can evaluate it. -/
def assembleDec (neg : Bool) (ip fp : List Char) (eneg : Bool) (e : Nat) : Rat :=
  let m := digitsVal (ip ++ fp)
  let num : Int := if neg then -(m : Int) else (m : Int)
  if eneg then mkRat num (10 ^ (fp.length + e))
  else mkRat (num * (10 : Int) ^ e) (10 ^ fp.length)

/-- Embedding of the numeric-literal grammar shared by Python `Decimal(s)`
and `float(s)` on the decimal strings these scripts process: optional sign,
digits with an optional fraction part (at least one digit overall), and an
optional `e`/`E` exponent.  `Option.none` models the constructor raising. -/
def parseDec (s : String) : Option Rat :=
  let cs := s.data
  let (neg, cs1) := takeSign cs
  let (ip, cs2) := cs1.span Char.isDigit
  let (fp, cs3) :=
    match cs2 with
    | '.' :: t => t.span Char.isDigit
    | _ => ([], cs2)
  if ip.isEmpty ∧ fp.isEmpty then Option.none
  else
    match cs3 with
    | [] => Option.some (assembleDec neg ip fp false 0)
    | c :: t =>
      if c = 'e' ∨ c = 'E' then
        let (eneg, t1) := takeSign t
        let (eds, t2) := t1.span Char.isDigit
        if eds.isEmpty ∨ ¬ t2.isEmpty then Option.none
        else Option.some (assembleDec neg ip fp eneg (digitsVal eds))
      else Option.none

/-- Embedding of Python `float(v)` / `Decimal(v)` on a `PyVal`:
`Option.none` models the call raising (`None`, or an unparsable string). -/
def pyNum : PyVal → Option Rat
  | PyVal.none => Option.none
  | PyVal.int n => Option.some (mkRat n 1)
  | PyVal.float q => Option.some q
  | PyVal.str s => parseDec s

/-- Python truthiness of a `PyVal`. -/
def pyTruthy : PyVal → Bool
  | PyVal.none => false
  | PyVal.int n => n != 0
  | PyVal.float q => q.num != 0
  | PyVal.str s => !s.isEmpty

/-- Is the first list a prefix of the second? (structural, kernel-evaluable) -/
def prefixOf : List Char → List Char → Bool
  | [], _ => true
  | _ :: _, [] => false
  | a :: as, b :: bs => a = b && prefixOf as bs

/-- Does `pat` occur as a contiguous sublist of `cs`? -/
def containsSub (cs pat : List Char) : Bool :=
  match cs with
  | [] => pat.isEmpty
  | _ :: rest => prefixOf pat cs || containsSub rest pat

/-- Embedding of Python `pat in s` (substring test). -/
def containsStr (s pat : String) : Bool := containsSub s.data pat.data

/-- Embedding of Python `c in s` for a single character. -/
def containsChar (s : String) (c : Char) : Bool := s.data.contains c

/-- Embedding of `format_amount(value, currency)` from `show_asset.py`
(lines 107-188): `None` prints as `"0"`; a string is parsed as a decimal
(parse failure returns the raw string via the `except` clause), magnitudes
below `0.01` print as `"0"`/`"0.00"` depending on the currency, a `JPY`
marker, or the absence of a decimal point, JPY strings print as
`str(int(float(value)))`, and other strings are returned verbatim; numeric
values below `0.01` in magnitude print as `"0"`/`"0.00"`, JPY numbers as
`f"{int(value):,}"`, floats as `f"{value:,.2f}"` and ints as `str(value)`.
(`abs(int_value) < 0.01` holds exactly when the int is `0`.) -/
def format_amount (value : PyVal) (currency : String) : String :=
  match value with
  | PyVal.none => "0"
  | PyVal.str s =>
    match parseDec s with
    | Option.none => s
    | Option.some d =>
      if ratAbs d < mkRat 1 100 then
        if currency = "JPY" ∨ containsStr s "JPY" = true ∨ containsChar s '.' = false
          then "0" else "0.00"
      else if currency = "JPY" ∨ containsStr s "JPY" = true then
        intPlain (ratTrunc d)
      else s
  | PyVal.int n =>
    if n = 0 then "0"
    else if currency = "JPY" then formatInt n
    else intPlain n
  | PyVal.float q =>
    if ratAbs q < mkRat 1 100 then
      if currency = "JPY" then "0" else "0.00"
    else if currency = "JPY" then formatInt (ratTrunc q)
    else formatFloat2 q

/-- Embedding of `format_currency(value, currency)` from `show_pos.py`
(lines 39-65).  For a string the code normalizes scientific notation and
re-parses with `Decimal`, which nets out to the parsed value (failure hits
the `except` clause and returns the raw string); for numbers it parses
`Decimal(str(value))`.  JPY prints `f"{int(decimal_value):,}"`, everything
else `f"{float(decimal_value):,.2f}"`. -/
def format_currency (value : PyVal) (currency : String) : String :=
  match value with
  | PyVal.str s =>
    match parseDec s with
    | Option.none => s
    | Option.some d =>
      if currency = "JPY" then formatInt (ratTrunc d) else formatFloat2 d
  | PyVal.int n =>
    if currency = "JPY" then formatInt n else formatFloat2 (mkRat n 1)
  | PyVal.float q =>
    if currency = "JPY" then formatInt (ratTrunc q) else formatFloat2 q
  | PyVal.none => "None"


lemma mem_natDigitsRevAux {c : Char} :
    ∀ fuel n, c ∈ natDigitsRevAux fuel n → ∃ k, k < 10 ∧ c = Nat.digitChar k := by
  intro fuel
  induction fuel with
  | zero => intro n h; simp [natDigitsRevAux] at h
  | succ f ih =>
    intro n h
    by_cases hn : n = 0
    · simp [natDigitsRevAux, hn] at h
    · simp [natDigitsRevAux, hn] at h
      rcases h with h | h
      · exact ⟨n % 10, Nat.mod_lt _ (by omega), h⟩
      · exact ih _ h

lemma mem_commaAux {c : Char} :
    ∀ ds k, c ∈ commaAux k ds → c ∈ ds ∨ c = ',' := by
  intro ds
  induction ds with
  | nil => intro k h; simp [commaAux] at h
  | cons d rest ih =>
    intro k h
    by_cases hk : k = 3
    · simp [commaAux, hk] at h
      rcases h with h | h | h
      · exact Or.inr h
      · exact Or.inl (by simp [h])
      · rcases ih 1 h with h' | h'
        · exact Or.inl (by simp [h'])
        · exact Or.inr h'
    · simp [commaAux, hk] at h
      rcases h with h | h
      · exact Or.inl (by simp [h])
      · rcases ih (k + 1) h with h' | h'
        · exact Or.inl (by simp [h'])
        · exact Or.inr h'

lemma digitChar_lt10 {k : Nat} (hk : k < 10) :
    (Nat.digitChar k).isDigit = true ∧ Nat.digitChar k ≠ '.' ∧ Nat.digitChar k ≠ ',' := by
  interval_cases k <;> exact ⟨by decide, by decide, by decide⟩

lemma dot_not_mem_commaDigits (m : Nat) : '.' ∉ commaDigits m := by
  intro h
  unfold commaDigits at h
  by_cases hm : m = 0
  · simp [hm] at h
  · simp [hm, List.mem_reverse] at h
    rcases mem_commaAux _ _ h with h' | h'
    · rcases mem_natDigitsRevAux _ _ h' with ⟨k, hk, hc⟩
      exact (digitChar_lt10 hk).2.1 hc.symm
    · exact absurd h' (by decide)

lemma dot_not_mem_formatInt (n : Int) : '.' ∉ (formatInt n).data := by
  intro h
  unfold formatInt at h
  rcases List.mem_append.mp h with h' | h'
  · by_cases hn : n < 0 <;> simp [hn] at h'
  · exact dot_not_mem_commaDigits _ h'

lemma formatFloat2_twoDecimals (q : Rat) :
    ∃ A d1 d2, (formatFloat2 q).data = A ++ ['.', d1, d2] ∧
      '.' ∉ A ∧ d1.isDigit = true ∧ d2.isDigit = true := by
  refine ⟨(if q < 0 then ['-'] else []) ++ commaDigits (centsOf q / 100),
    Nat.digitChar (centsOf q / 10 % 10), Nat.digitChar (centsOf q % 10), ?_, ?_, ?_, ?_⟩
  · show float2Chars q = _
    unfold float2Chars
    simp
  · intro h
    rcases List.mem_append.mp h with h' | h'
    · by_cases hq : q < 0 <;> simp [hq] at h'
    · exact dot_not_mem_commaDigits _ h'
  · exact (digitChar_lt10 (Nat.mod_lt _ (by omega))).1
  · exact (digitChar_lt10 (Nat.mod_lt _ (by omega))).1

/-- C1 (counterexample): the claim states that the USD total_cash string
"1500.004" is displayed by `format_amount` as "1,500.00"; in fact the
string branch of `format_amount` returns a magnitude-ge-0.01 non-JPY
string verbatim, so "1500.004" is displayed as "1500.004". -/
theorem C1_counterexample :
    format_amount (PyVal.str "1500.004") "USD" = "1500.004" ∧
    ¬ format_amount (PyVal.str "1500.004") "USD" = "1,500.00" :=
  ⟨by decide, by decide⟩

/-- C1 (amended): only float inputs of magnitude at least 0.01 with a
non-JPY currency are rendered by `format_amount` with thousands separators
and exactly two decimal places (1234.5 becomes "1,234.50"); string inputs
of magnitude at least 0.01 not containing "JPY" are returned verbatim (so
"1500.004" is displayed as "1500.004"), and nonzero integer inputs are
rendered as plain `str(value)` without separators. -/
theorem C1_amended :
    (∀ (q : Rat) (c : String), ¬ c = "JPY" → ¬ ratAbs q < mkRat 1 100 →
        format_amount (PyVal.float q) c = formatFloat2 q) ∧
    (∀ q : Rat, ∃ A d1 d2, (formatFloat2 q).data = A ++ ['.', d1, d2] ∧
        '.' ∉ A ∧ d1.isDigit = true ∧ d2.isDigit = true) ∧
    format_amount (PyVal.float (mkRat 12345 10)) "USD" = "1,234.50" ∧
    (∀ (s c : String) (d : Rat), parseDec s = Option.some d →
        ¬ ratAbs d < mkRat 1 100 → ¬ c = "JPY" → containsStr s "JPY" = false →
        format_amount (PyVal.str s) c = s) ∧
    format_amount (PyVal.str "1500.004") "USD" = "1500.004" ∧
    (∀ (n : Int) (c : String), ¬ n = 0 → ¬ c = "JPY" →
        format_amount (PyVal.int n) c = intPlain n) := by
  refine ⟨?_, formatFloat2_twoDecimals, by decide, ?_, by decide, ?_⟩
  · intro q c hc hq
    simp [format_amount, if_neg hq, if_neg hc]
  · intro s c d hp hd hc hj
    have hor : ¬ (c = "JPY" ∨ containsStr s "JPY" = true) := by simp [hc, hj]
    simp [format_amount, hp, if_neg hd, if_neg hor]
  · intro n c hn hc
    simp [format_amount, if_neg hn, if_neg hc]

/-- C1 (witness): the quantified parts of `C1_amended` applied at the float
1234.5, the string "1500.004" and the integer 1234, all with currency USD. -/
theorem C1_amended_witness :
    format_amount (PyVal.float (mkRat 12345 10)) "USD" = formatFloat2 (mkRat 12345 10) ∧
    format_amount (PyVal.str "1500.004") "USD" = "1500.004" ∧
    format_amount (PyVal.int 1234) "USD" = intPlain 1234 :=
  ⟨C1_amended.1 (mkRat 12345 10) "USD" (by decide) (by decide),
   C1_amended.2.2.2.1 "1500.004" "USD" (mkRat 1500004 1000) (by decide) (by decide)
     (by decide) (by decide),
   C1_amended.2.2.2.2.2 1234 "USD" (by decide) (by decide)⟩

/-- C2 (counterexample): the claim states (per the spec's example) that the
float 1234.9 formatted with JPY yields "1,235"; in fact `format_amount`
truncates via `int()`, yielding "1,234". -/
theorem C2_counterexample :
    ¬ format_amount (PyVal.float (mkRat 12349 10)) "JPY" = "1,235" ∧
    format_amount (PyVal.float (mkRat 12349 10)) "JPY" = "1,234" :=
  ⟨by decide, by decide⟩

/-- C2 (amended): for float and integer inputs of magnitude at least 0.01
with currency JPY, `format_amount` returns the thousands-separated integer
truncation with zero decimal places, so 1234.9 yields "1,234" (not
"1,235"); numeric-string inputs with JPY yield `str(int(float(s)))`
without thousands separators ("1234.9" yields "1234"); `format_currency`
of `show_pos.py` also yields "1,234" for 1234.9. -/
theorem C2_amended :
    (∀ q : Rat, ¬ ratAbs q < mkRat 1 100 →
        format_amount (PyVal.float q) "JPY" = formatInt (ratTrunc q)) ∧
    (∀ n : Int, '.' ∉ (formatInt n).data) ∧
    format_amount (PyVal.float (mkRat 12349 10)) "JPY" = "1,234" ∧
    (∀ n : Int, ¬ n = 0 → format_amount (PyVal.int n) "JPY" = formatInt n) ∧
    (∀ (s : String) (d : Rat), parseDec s = Option.some d → ¬ ratAbs d < mkRat 1 100 →
        format_amount (PyVal.str s) "JPY" = intPlain (ratTrunc d)) ∧
    format_amount (PyVal.str "1234.9") "JPY" = "1234" ∧
    format_currency (PyVal.float (mkRat 12349 10)) "JPY" = "1,234" := by
  refine ⟨?_, dot_not_mem_formatInt, by decide, ?_, ?_, by decide, by decide⟩
  · intro q hq
    simp [format_amount, if_neg hq]
  · intro n hn
    simp [format_amount, if_neg hn]
  · intro s d hp hd
    simp [format_amount, hp, if_neg hd]

/-- C2 (witness): the quantified parts of `C2_amended` applied at the float
1234.9, the integer 1234 and the string "1234.9". -/
theorem C2_amended_witness :
    format_amount (PyVal.float (mkRat 12349 10)) "JPY" = formatInt (ratTrunc (mkRat 12349 10)) ∧
    format_amount (PyVal.int 1234) "JPY" = formatInt 1234 ∧
    format_amount (PyVal.str "1234.9") "JPY" = intPlain (ratTrunc (mkRat 12349 10)) :=
  ⟨C2_amended.1 (mkRat 12349 10) (by decide),
   C2_amended.2.2.2.1 1234 (by decide),
   C2_amended.2.2.2.2.1 "1234.9" (mkRat 12349 10) (by decide) (by decide)⟩

/-- C3 (code evaluated at the failing input): `format_amount("0E-10",
"USD")` returns "0", not the "0.00" promised by the claim, the spec and
the function's own docstring example; the string parses to zero but
contains no '.' character, so the no-decimal-point test routes it to the
"0" branch. -/
theorem C3_eval :
    format_amount (PyVal.str "0E-10") "USD" = "0" ∧
    ¬ format_amount (PyVal.str "0E-10") "USD" = "0.00" ∧
    parseDec "0E-10" = Option.some (mkRat 0 1) ∧
    containsChar "0E-10" '.' = false :=
  ⟨by decide, by decide, by decide, by decide⟩

/-- A decoded JSON record, modelled as an association list of fields (keys
are unique in a Python dict; lookup takes the first match). -/
def Record := List (String × PyVal)

/-- Embedding of `record.get(key)`: `Option.none` models an absent key. -/
def rget : Record → String → Option PyVal
  | [], _ => Option.none
  | (k, v) :: rest, key => if k = key then Option.some v else rget rest key

/-- Field reconciliation: embedding of nested `pos.get(k1, pos.get(k2,
default))` chains from `show_asset.py` (lines 524-544) and
`show_asset_v2.py` (lines 210-217): return the value of the first present
key, else the default. -/
def pickFirst (pos : Record) : List String → PyVal → PyVal
  | [], dflt => dflt
  | k :: ks, dflt =>
    match rget pos k with
    | Option.some v => v
    | Option.none => pickFirst pos ks dflt

/-- `pos.get('position', pos.get('quantity', 0))`. -/
def quantityOf (pos : Record) : PyVal := pickFirst pos ["position", "quantity"] (PyVal.int 0)

/-- `pos.get('marketValue', pos.get('market_value', 0))`. -/
def marketValueOf (pos : Record) : PyVal :=
  pickFirst pos ["marketValue", "market_value"] (PyVal.int 0)

/-- `pos.get('costPrice', pos.get('cost_price', pos.get('cost', 0)))`. -/
def costPriceOf (pos : Record) : PyVal :=
  pickFirst pos ["costPrice", "cost_price", "cost"] (PyVal.int 0)

/-- The held-position test of `show_asset.py` (lines 479-496) and
`show_asset_v2.py` (lines 188-198): `quantity_float = float(quantity) if
quantity else 0`; keep the record when `quantity_float > 0`, and also keep
it when `float(quantity)` raises (`ValueError`/`TypeError`). -/
def assetKeep (pos : Record) : Bool :=
  let quantity := quantityOf pos
  if pyTruthy quantity then
    match pyNum quantity with
    | Option.some q => decide ((0 : Rat) < q)
    | Option.none => true
  else false

/-- The `valid_positions` accumulation loop of `show_asset.py`, which
appends exactly the records passing `assetKeep`. -/
def validPositions (ps : List Record) : List Record := ps.filter assetKeep

/-- A holding record of `show_pos.py`; only the `qty` field (absent keys
default to the string "0" via `holding.get('qty', '0')`) is relevant to
the filter. -/
structure Holding where
  qty : Option PyVal
deriving DecidableEq, Repr

/-- The filter inside `get_positions` of `show_pos.py` (lines 131-140):
`Decimal(qty)` then keep if strictly positive; on a parse exception the
record is skipped (`continue`), not kept. -/
def posKeep (h : Holding) : Bool :=
  match pyNum (h.qty.getD (PyVal.str "0")) with
  | Option.some d => decide ((0 : Rat) < d)
  | Option.none => false

/-- The per-page accumulation of positive-quantity holdings in
`get_positions` of `show_pos.py`. -/
def filterHoldings (hs : List Holding) : List Holding := hs.filter posKeep

/-- One page of the paginated position response consumed by
`get_positions`: HTTP status, `holdings` array, `has_next` flag. -/
structure PosResponse where
  status : Nat
  holdings : List Holding
  hasNext : Bool
deriving DecidableEq, Repr

/-- The pagination loop of `get_positions` (`show_pos.py`, lines 113-156),
with the remote API modelled as the stream of responses it returns: on
status 200 append the positive-quantity holdings and continue while
`has_next` and the page was nonempty; on any other status print an error
and break, returning what was accumulated so far. -/
def getPosAux : List PosResponse → List Holding → List Holding
  | [], acc => acc
  | r :: rest, acc =>
    if r.status = 200 then
      if r.hasNext = true ∧ ¬ r.holdings = [] then
        getPosAux rest (acc ++ filterHoldings r.holdings)
      else acc ++ filterHoldings r.holdings
    else acc

/-- `get_positions` of `show_pos.py`, starting from an empty accumulator. -/
def getPositions (responses : List PosResponse) : List Holding := getPosAux responses []

/-- Normalized JSON value for the positions payload: an array, an object,
or an atom (string/number/null). -/
inductive JVal where
  | list (xs : List JVal) : JVal
  | dict (fields : List (String × JVal)) : JVal
  | atom (v : PyVal) : JVal

/-- Key lookup in a JSON object. -/
def jget : List (String × JVal) → String → Option JVal
  | [], _ => Option.none
  | (k, v) :: rest, key => if k = key then Option.some v else jget rest key

/-- The response-shape normalization of `display_asset_info`
(`show_asset.py` lines 458-472, `show_asset_v2.py` lines 174-186):
a list is used as-is; a dict yields its `positions` value, else its
`data` value, else the whole dict as a one-element list; anything else
leaves the initial empty list. -/
def normalizePositions (d : JVal) : JVal :=
  match d with
  | JVal.list _ => d
  | JVal.dict fs =>
    match jget fs "positions" with
    | Option.some v => v
    | Option.none =>
      match jget fs "data" with
      | Option.some v => v
      | Option.none => JVal.list [JVal.dict fs]
  | JVal.atom _ => JVal.list []

/-- Number of records a normalized payload denotes (`Option.none` when the
selected value is not an array). -/
def jlen : JVal → Option Nat
  | JVal.list xs => Option.some xs.length
  | _ => Option.none

/-- C4 (counterexample): the claim states that every script's
held-positions filter retains a record whose quantity cannot be parsed;
but `get_positions` of `show_pos.py` skips such records (`continue` on the
parse exception), so a holding with qty "N/A" is dropped, not retained. -/
theorem C4_counterexample :
    filterHoldings [⟨Option.some (PyVal.str "N/A")⟩] = [] ∧
    posKeep ⟨Option.some (PyVal.str "N/A")⟩ = false :=
  ⟨by decide, by decide⟩

/-- C4 (amended): in `show_asset.py` / `show_asset_v2.py`, a record whose
quantity parses to a value not strictly greater than zero (e.g. "0") is
excluded and a record whose truthy quantity cannot be parsed (e.g. "N/A")
is retained; in `show_pos.py`'s `get_positions`, a holding whose qty is
not parsable, or parses to a non-positive value, is excluded (unparsable
holdings are skipped, not retained). -/
theorem C4_amended :
    (∀ (r : Record) (q : Rat), pyNum (quantityOf r) = Option.some q → ¬ (0 : Rat) < q →
        assetKeep r = false) ∧
    (∀ r : Record, pyTruthy (quantityOf r) = true → pyNum (quantityOf r) = Option.none →
        assetKeep r = true) ∧
    assetKeep [("quantity", PyVal.str "0")] = false ∧
    assetKeep [("quantity", PyVal.str "N/A")] = true ∧
    (∀ (ps : List Record) (r : Record), r ∈ validPositions ps ↔ r ∈ ps ∧ assetKeep r = true) ∧
    (∀ h : Holding, pyNum (h.qty.getD (PyVal.str "0")) = Option.none → posKeep h = false) ∧
    (∀ (h : Holding) (q : Rat), pyNum (h.qty.getD (PyVal.str "0")) = Option.some q →
        ¬ (0 : Rat) < q → posKeep h = false) ∧
    (∀ (hs : List Holding) (h : Holding), h ∈ filterHoldings hs ↔ h ∈ hs ∧ posKeep h = true) := by
  refine ⟨?_, ?_, by decide, by decide, ?_, ?_, ?_, ?_⟩
  · intro r q h1 h2
    unfold assetKeep
    by_cases ht : pyTruthy (quantityOf r) <;> simp [ht, h1, h2]
  · intro r ht hn
    simp [assetKeep, ht, hn]
  · intro ps r
    simp [validPositions, List.mem_filter]
  · intro h hn
    simp [posKeep, hn]
  · intro h q h1 h2
    simp [posKeep, h1, h2]
  · intro hs h
    simp [filterHoldings, List.mem_filter]

/-- C4 (witness): `C4_amended` applied at a zero-quantity record, an
unparsable-quantity record, and the corresponding `show_pos.py` holdings. -/
theorem C4_amended_witness :
    assetKeep [("position", PyVal.str "0")] = false ∧
    assetKeep [("position", PyVal.str "N/A")] = true ∧
    posKeep ⟨Option.some (PyVal.str "N/A")⟩ = false ∧
    posKeep ⟨Option.some (PyVal.str "0")⟩ = false ∧
    (⟨Option.some (PyVal.str "N/A")⟩ ∈ filterHoldings [⟨Option.some (PyVal.str "N/A")⟩] ↔
      (⟨Option.some (PyVal.str "N/A")⟩ : Holding) ∈ [(⟨Option.some (PyVal.str "N/A")⟩ : Holding)] ∧
      posKeep ⟨Option.some (PyVal.str "N/A")⟩ = true) :=
  ⟨C4_amended.1 [("position", PyVal.str "0")] (mkRat 0 1) (by decide) (by decide),
   C4_amended.2.1 [("position", PyVal.str "N/A")] (by decide) (by decide),
   C4_amended.2.2.2.2.2.1 ⟨Option.some (PyVal.str "N/A")⟩ (by decide),
   C4_amended.2.2.2.2.2.2.1 ⟨Option.some (PyVal.str "0")⟩ (mkRat 0 1) (by decide) (by decide),
   C4_amended.2.2.2.2.2.2.2 [⟨Option.some (PyVal.str "N/A")⟩] ⟨Option.some (PyVal.str "N/A")⟩⟩

/-- C5: the payload normalization tries, in order: raw array (all N
records), the `positions` key, the `data` key, and finally the whole
mapping as a single record; the `positions` key takes priority over
`data`, and a bare object yields exactly one record. -/
theorem C5_normalize :
    (∀ xs : List JVal, normalizePositions (JVal.list xs) = JVal.list xs ∧
        jlen (normalizePositions (JVal.list xs)) = Option.some xs.length) ∧
    (∀ (fs : List (String × JVal)) (v : JVal), jget fs "positions" = Option.some v →
        normalizePositions (JVal.dict fs) = v) ∧
    (∀ (fs : List (String × JVal)) (v : JVal), jget fs "positions" = Option.none →
        jget fs "data" = Option.some v → normalizePositions (JVal.dict fs) = v) ∧
    (∀ fs : List (String × JVal), jget fs "positions" = Option.none →
        jget fs "data" = Option.none →
        normalizePositions (JVal.dict fs) = JVal.list [JVal.dict fs] ∧
        jlen (normalizePositions (JVal.dict fs)) = Option.some 1) := by
  refine ⟨?_, ?_, ?_, ?_⟩
  · intro xs
    exact ⟨rfl, rfl⟩
  · intro fs v h
    simp [normalizePositions, h]
  · intro fs v h1 h2
    simp [normalizePositions, h1, h2]
  · intro fs h1 h2
    refine ⟨by simp [normalizePositions, h1, h2], by simp [normalizePositions, h1, h2, jlen]⟩

/-- C5 (witness): `C5_normalize` applied to a two-record `positions`
mapping (with a competing `data` key, showing the priority), a two-record
`data` mapping, and a bare object. -/
theorem C5_normalize_witness :
    normalizePositions (JVal.dict [("positions",
        JVal.list [JVal.atom PyVal.none, JVal.atom PyVal.none]), ("data", JVal.list [])]) =
      JVal.list [JVal.atom PyVal.none, JVal.atom PyVal.none] ∧
    normalizePositions (JVal.dict [("data",
        JVal.list [JVal.atom PyVal.none, JVal.atom PyVal.none])]) =
      JVal.list [JVal.atom PyVal.none, JVal.atom PyVal.none] ∧
    normalizePositions (JVal.dict [("account_id", JVal.atom (PyVal.str "A1"))]) =
      JVal.list [JVal.dict [("account_id", JVal.atom (PyVal.str "A1"))]] :=
  ⟨C5_normalize.2.1 [("positions", JVal.list [JVal.atom PyVal.none, JVal.atom PyVal.none]),
      ("data", JVal.list [])] (JVal.list [JVal.atom PyVal.none, JVal.atom PyVal.none]) rfl,
   C5_normalize.2.2.1 [("data", JVal.list [JVal.atom PyVal.none, JVal.atom PyVal.none])]
      (JVal.list [JVal.atom PyVal.none, JVal.atom PyVal.none]) rfl rfl,
   (C5_normalize.2.2.2 [("account_id", JVal.atom (PyVal.str "A1"))] rfl rfl).1⟩

/-- C6: field reconciliation returns the value of the first present key in
the fixed priority list ('position' before 'quantity', 'marketValue'
before 'market_value'), without checking agreement when both are present;
in particular {"position": 5, "quantity": 10} resolves to 5. -/
theorem C6_reconcile :
    (∀ (pos : Record) (v : PyVal), rget pos "position" = Option.some v → quantityOf pos = v) ∧
    (∀ (pos : Record) (v : PyVal), rget pos "position" = Option.none →
        rget pos "quantity" = Option.some v → quantityOf pos = v) ∧
    (∀ pos : Record, rget pos "position" = Option.none → rget pos "quantity" = Option.none →
        quantityOf pos = PyVal.int 0) ∧
    quantityOf [("position", PyVal.int 5), ("quantity", PyVal.int 10)] = PyVal.int 5 ∧
    (∀ (pos : Record) (v : PyVal), rget pos "marketValue" = Option.some v →
        marketValueOf pos = v) ∧
    (∀ (pos : Record) (v : PyVal), rget pos "marketValue" = Option.none →
        rget pos "market_value" = Option.some v → marketValueOf pos = v) := by
  refine ⟨?_, ?_, ?_, by decide, ?_, ?_⟩
  · intro pos v h
    simp [quantityOf, pickFirst, h]
  · intro pos v h1 h2
    simp [quantityOf, pickFirst, h1, h2]
  · intro pos h1 h2
    simp [quantityOf, pickFirst, h1, h2]
  · intro pos v h
    simp [marketValueOf, pickFirst, h]
  · intro pos v h1 h2
    simp [marketValueOf, pickFirst, h1, h2]

/-- C6 (witness): `C6_reconcile` applied at records carrying both, one, or
neither of the alternate keys. -/
theorem C6_reconcile_witness :
    quantityOf [("position", PyVal.int 5), ("quantity", PyVal.int 10)] = PyVal.int 5 ∧
    quantityOf [("quantity", PyVal.int 10)] = PyVal.int 10 ∧
    quantityOf [("symbol", PyVal.str "AAPL")] = PyVal.int 0 ∧
    marketValueOf [("marketValue", PyVal.int 7), ("market_value", PyVal.int 8)] = PyVal.int 7 ∧
    marketValueOf [("market_value", PyVal.int 8)] = PyVal.int 8 :=
  ⟨C6_reconcile.1 [("position", PyVal.int 5), ("quantity", PyVal.int 10)] (PyVal.int 5) rfl,
   C6_reconcile.2.1 [("quantity", PyVal.int 10)] (PyVal.int 10) rfl rfl,
   C6_reconcile.2.2.1 [("symbol", PyVal.str "AAPL")] rfl rfl,
   C6_reconcile.2.2.2.2.1 [("marketValue", PyVal.int 7), ("market_value", PyVal.int 8)]
     (PyVal.int 7) rfl,
   C6_reconcile.2.2.2.2.2 [("market_value", PyVal.int 8)] (PyVal.int 8) rfl rfl⟩

/-- C10: when a later page of the pagination loop in `get_positions`
returns a non-200 status, the loop breaks and returns the holdings
accumulated from the earlier successful pages (the positive-quantity
holdings of page one) — it does not raise, return a none-like failure, or
discard what was already fetched. -/
theorem C10_truncated :
    ∀ (r1 r2 : PosResponse) (rest : List PosResponse),
      r1.status = 200 → r1.hasNext = true → ¬ r1.holdings = [] → ¬ r2.status = 200 →
      getPositions (r1 :: r2 :: rest) = filterHoldings r1.holdings := by
  intro r1 r2 rest h1 h2 h3 h4
  simp [getPositions, getPosAux, h1, h2, h3, h4]

/-- C10 (witness): `C10_truncated` on a successful first page holding one
positive position followed by a 500 response. -/
theorem C10_witness :
    getPositions [⟨200, [⟨Option.some (PyVal.str "3")⟩], true⟩, ⟨500, [], false⟩] =
      filterHoldings [⟨Option.some (PyVal.str "3")⟩] :=
  C10_truncated ⟨200, [⟨Option.some (PyVal.str "3")⟩], true⟩ ⟨500, [], false⟩ []
    rfl rfl (by decide) (by decide)

/-- The two observable resources of a reporting script's `main`: whether
`sys.stdout` currently points at the original terminal stream, and whether
the Markdown output file handle is closed. -/
structure StdState where
  stdoutIsTerminal : Bool
  fileClosed : Bool
deriving DecidableEq, Repr

/-- The primitive resource actions a `main` routine performs. -/
inductive Act where
  | openLog : Act
  | redirect : Act
  | restore : Act
  | close : Act
deriving DecidableEq, Repr

/-- Effect of each action on the resource state. -/
def applyAct : Act → StdState → StdState
  | Act.openLog, st => { st with fileClosed := false }
  | Act.redirect, st => { st with stdoutIsTerminal := false }
  | Act.restore, st => { st with stdoutIsTerminal := true }
  | Act.close, st => { st with fileClosed := true }

/-- Control skeleton of a `main` routine: primitive actions, the body
(which may raise), sequencing, and `try`/`finally`. -/
inductive Prog where
  | act (a : Act) : Prog
  | body : Prog
  | seq (p q : Prog) : Prog
  | tryFinally (p f : Prog) : Prog

/-- Execute a program; `bodyRaises` says whether the body raises an
exception mid-run.  Returns the final state and whether an exception
propagates out: a raise skips the rest of a sequence, while a `finally`
block runs regardless and the exception then continues to propagate. -/
def exec : Prog → Bool → StdState → StdState × Bool
  | Prog.act a, _, st => (applyAct a st, false)
  | Prog.body, bodyRaises, st => (st, bodyRaises)
  | Prog.seq p q, bodyRaises, st =>
    match exec p bodyRaises st with
    | (st1, true) => (st1, true)
    | (st1, false) => exec q bodyRaises st1
  | Prog.tryFinally p f, bodyRaises, st =>
    match exec p bodyRaises st with
    | (st1, e1) =>
      match exec f bodyRaises st1 with
      | (st2, e2) => (st2, e1 || e2)

/-- `main` of `show_asset.py` (lines 690-804): open the logger and redirect
stdout, then run the body inside `try`, with a `finally` block that
restores stdout and closes the file. -/
def showAssetProg : Prog :=
  Prog.seq (Prog.act Act.openLog) (Prog.seq (Prog.act Act.redirect)
    (Prog.tryFinally Prog.body (Prog.seq (Prog.act Act.restore) (Prog.act Act.close))))

/-- `main` of `show_symbol_us.py` (lines 34-187): open the logger and
redirect stdout, run the body with no `try`, and only then call
`logger.close()`, which closes the file and restores stdout. -/
def showSymbolUsProg : Prog :=
  Prog.seq (Prog.act Act.openLog) (Prog.seq (Prog.act Act.redirect)
    (Prog.seq Prog.body (Prog.seq (Prog.act Act.close) (Prog.act Act.restore))))

/-- `main` of `show_symbol_jp.py` (lines 35-218): same unprotected
structure as `show_symbol_us.py`. -/
def showSymbolJpProg : Prog :=
  Prog.seq (Prog.act Act.openLog) (Prog.seq (Prog.act Act.redirect)
    (Prog.seq Prog.body (Prog.seq (Prog.act Act.close) (Prog.act Act.restore))))

/-- The state at script start: stdout is the terminal, no file is open. -/
def initStd : StdState := { stdoutIsTerminal := true, fileClosed := true }

/-- C7 (counterexample): the claim requires every reporting script to
close the output file and restore stdout on every exit path including
exceptions; in `show_symbol_us.py`, a body that raises leaves the file
open and stdout still redirected, with the exception propagating. -/
theorem C7_counterexample :
    exec showSymbolUsProg true initStd =
      ({ stdoutIsTerminal := false, fileClosed := false }, true) := by
  decide

/-- C7 (amended): `main` of `show_asset.py` restores stdout and closes the
file on every exit path (the `finally` block runs whether or not the body
raises, and the exception still propagates), while `show_symbol_us.py` and
`show_symbol_jp.py` do so only on the normal path: when the body raises,
they exit with the file open and stdout still redirected. -/
theorem C7_amended :
    (∀ b : Bool, (exec showAssetProg b initStd).1 =
        { stdoutIsTerminal := true, fileClosed := true } ∧
      (exec showAssetProg b initStd).2 = b) ∧
    (exec showSymbolUsProg false initStd).1 =
      { stdoutIsTerminal := true, fileClosed := true } ∧
    (exec showSymbolUsProg true initStd).1 =
      { stdoutIsTerminal := false, fileClosed := false } ∧
    (exec showSymbolJpProg false initStd).1 =
      { stdoutIsTerminal := true, fileClosed := true } ∧
    (exec showSymbolJpProg true initStd).1 =
      { stdoutIsTerminal := false, fileClosed := false } := by
  refine ⟨fun b => ?_, by decide, by decide, by decide, by decide⟩
  cases b <;> exact ⟨by decide, by decide⟩

/-- Whitespace stripped by Python `str.strip()` on the characters these
files contain. -/
def isSpaceChar (c : Char) : Bool :=
  c = ' ' || c = '\t' || c = '\n' || c = '\r'

/-- Embedding of `line.strip()`. -/
def trimChars (cs : List Char) : List Char :=
  ((cs.dropWhile isSpaceChar).reverse.dropWhile isSpaceChar).reverse

/-- Embedding of `line.split('=', 1)`: split at the first `=`, returning
`Option.none` when the line contains no `=`. -/
def breakAtEq : List Char → Option (List Char × List Char)
  | [] => Option.none
  | c :: t =>
    if c = '=' then Option.some ([], t)
    else
      match breakAtEq t with
      | Option.some (a, b) => Option.some (c :: a, b)
      | Option.none => Option.none

/-- The single-quote character (codepoint 39). -/
def singleQuoteChar : Char := Char.ofNat 39

/-- Does the list start with `q`? -/
def headIs (q : Char) : List Char → Bool
  | [] => false
  | c :: _ => c = q

/-- Embedding of `value.startswith(q) and value.endswith(q)` followed by
`value[1:-1]`: strip one matching pair of surrounding quotes, double
quotes first, then single quotes. -/
def stripQuotes (cs : List Char) : List Char :=
  if headIs '"' cs && headIs '"' cs.reverse then (cs.drop 1).dropLast
  else if headIs singleQuoteChar cs && headIs singleQuoteChar cs.reverse then
    (cs.drop 1).dropLast
  else cs

/-- Embedding of the per-line parsing of `load_env_file` (`show_asset.py`
lines 233-263, `show_asset_v1.py` lines 23-42): strip the line, skip blank
and `#` lines, split at the first `=`, strip key and value, strip
surrounding quotes from the value. -/
def parseEnvLine (line : String) : Option (String × String) :=
  match trimChars line.data with
  | [] => Option.none
  | c :: rest =>
    if c = '#' then Option.none
    else
      match breakAtEq (c :: rest) with
      | Option.none => Option.none
      | Option.some (k, v) =>
        Option.some (String.mk (trimChars k), String.mk (stripQuotes (trimChars v)))

/-- Embedding of `not os.getenv(key)`: true when the key is absent or its
value is the empty string (both are falsy in Python). -/
def envFalsy (env : String → Option String) (k : String) : Bool :=
  (env k).getD "" == ""

/-- Point update of the environment, embedding `os.environ[key] = value`. -/
def updateEnv (env : String → Option String) (k v : String) : String → Option String :=
  fun k2 => if k2 = k then Option.some v else env k2

/-- Process one line: assign only when `key and value and not
os.getenv(key)`. -/
def applyEnvLine (env : String → Option String) (line : String) : String → Option String :=
  match parseEnvLine line with
  | Option.none => env
  | Option.some (k, v) =>
    if ¬ k = "" ∧ ¬ v = "" ∧ envFalsy env k = true then updateEnv env k v else env

/-- `load_env_file` over the lines of the `.env` file, transforming the
process environment. -/
def loadEnvFile (lines : List String) (env : String → Option String) : String → Option String :=
  lines.foldl applyEnvLine env

lemma applyEnvLine_keeps {env : String → Option String} {line k v : String}
    (h : env k = Option.some v) (hv : ¬ v = "") : applyEnvLine env line k = Option.some v := by
  unfold applyEnvLine
  cases hp : parseEnvLine line with
  | none => exact h
  | some p =>
    obtain ⟨pk, pv⟩ := p
    show (if ¬ pk = "" ∧ ¬ pv = "" ∧ envFalsy env pk = true
      then updateEnv env pk pv else env) k = Option.some v
    by_cases hc : ¬ pk = "" ∧ ¬ pv = "" ∧ envFalsy env pk = true
    · rw [if_pos hc]
      unfold updateEnv
      by_cases hk : k = pk
      · exfalso
        rcases hc with ⟨-, -, hf⟩
        rw [envFalsy, ← hk, h] at hf
        simp at hf
        exact hv hf
      · rw [if_neg hk]
        exact h
    · rw [if_neg hc]
      exact h

lemma applyEnvLine_other {env : String → Option String} {line k : String}
    (h : ∀ p : String × String, parseEnvLine line = Option.some p → ¬ p.1 = k) :
    applyEnvLine env line k = env k := by
  unfold applyEnvLine
  cases hp : parseEnvLine line with
  | none => rfl
  | some p =>
    obtain ⟨pk, pv⟩ := p
    have hk : ¬ pk = k := h (pk, pv) hp
    show (if ¬ pk = "" ∧ ¬ pv = "" ∧ envFalsy env pk = true
      then updateEnv env pk pv else env) k = env k
    by_cases hc : ¬ pk = "" ∧ ¬ pv = "" ∧ envFalsy env pk = true
    · rw [if_pos hc]
      unfold updateEnv
      rw [if_neg (fun he => hk he.symm)]
    · rw [if_neg hc]

/-- C8 (counterexample): the claim says a key already set in the
environment is never overwritten; but for a key pre-set to the empty
string, `not os.getenv(key)` is true (empty is falsy), so the file value
overwrites it. -/
theorem C8_counterexample :
    (fun k => if k = "WEBULL_APP_KEY" then Option.some "" else Option.none : String → Option String)
        "WEBULL_APP_KEY" = Option.some "" ∧
    loadEnvFile ["WEBULL_APP_KEY=filekey"]
        (fun k => if k = "WEBULL_APP_KEY" then Option.some "" else Option.none)
        "WEBULL_APP_KEY" = Option.some "filekey" :=
  ⟨rfl, by decide⟩

/-- C8 (amended): `load_env_file` never overwrites a pre-existing
non-empty environment value, even when the file defines the key
differently; a pre-existing empty-string value is treated as unset and may
be overwritten; and keys not assigned by any file line are never
modified. -/
theorem C8_amended :
    (∀ (lines : List String) (env : String → Option String) (k v : String),
        env k = Option.some v → ¬ v = "" → loadEnvFile lines env k = Option.some v) ∧
    (∀ (lines : List String) (env : String → Option String) (k : String),
        (∀ p ∈ lines.filterMap parseEnvLine, ¬ p.1 = k) →
        loadEnvFile lines env k = env k) := by
  constructor
  · intro lines
    induction lines with
    | nil => intro env k v h _; exact h
    | cons l rest ih =>
      intro env k v h hv
      exact ih (applyEnvLine env l) k v (applyEnvLine_keeps h hv) hv
  · intro lines
    induction lines with
    | nil => intro env k _; rfl
    | cons l rest ih =>
      intro env k h
      have h1 : ∀ p : String × String, parseEnvLine l = Option.some p → ¬ p.1 = k := by
        intro p hp
        exact h p (List.mem_filterMap.mpr ⟨l, by simp, hp⟩)
      have h2 : ∀ p ∈ rest.filterMap parseEnvLine, ¬ p.1 = k := by
        intro p hp
        rcases List.mem_filterMap.mp hp with ⟨a, ha, hfa⟩
        exact h p (List.mem_filterMap.mpr ⟨a, List.mem_cons_of_mem _ ha, hfa⟩)
      calc loadEnvFile (l :: rest) env k
          = loadEnvFile rest (applyEnvLine env l) k := rfl
        _ = applyEnvLine env l k := ih (applyEnvLine env l) k h2
        _ = env k := applyEnvLine_other h1

/-- C8 (witness): `C8_amended` applied to a file defining
`WEBULL_APP_KEY=filekey` against an environment where the key is pre-set
to the non-empty "envkey" (kept), and at a key the file does not
mention. -/
theorem C8_amended_witness :
    loadEnvFile ["# comment", "WEBULL_APP_KEY=filekey"]
        (fun k => if k = "WEBULL_APP_KEY" then Option.some "envkey" else Option.none)
        "WEBULL_APP_KEY" = Option.some "envkey" ∧
    loadEnvFile ["# comment", "WEBULL_APP_KEY=filekey"]
        (fun k => if k = "WEBULL_APP_KEY" then Option.some "envkey" else Option.none)
        "WEBULL_APP_SECRET" =
      (fun k => if k = "WEBULL_APP_KEY" then Option.some "envkey" else Option.none)
        "WEBULL_APP_SECRET" :=
  ⟨C8_amended.1 ["# comment", "WEBULL_APP_KEY=filekey"]
      (fun k => if k = "WEBULL_APP_KEY" then Option.some "envkey" else Option.none)
      "WEBULL_APP_KEY" "envkey" rfl (by decide),
   C8_amended.2 ["# comment", "WEBULL_APP_KEY=filekey"]
      (fun k => if k = "WEBULL_APP_KEY" then Option.some "envkey" else Option.none)
      "WEBULL_APP_SECRET" (by decide)⟩

/-- State of the `MarkdownLogger` of `show_his.py` (lines 44-80): the
in-memory buffer serialized to the file by `save`, plus the lines emitted
to the console. -/
structure LoggerState where
  lines : List String
  console : List String
deriving DecidableEq, Repr

/-- `MarkdownLogger.print(message, to_file, to_console)`: print to the
console when `to_console`, append to the buffer when `to_file`. -/
def loggerPrint (st : LoggerState) (message : String) (toFile toConsole : Bool) : LoggerState :=
  let st1 := if toConsole then { st with console := st.console ++ [message] } else st
  if toFile then { st1 with lines := st1.lines ++ [message] } else st1

/-- `MarkdownLogger.save()`: the file contents written at end of run. -/
def loggerSave (st : LoggerState) : String := String.intercalate "\n" st.lines

/-- One call to `logger.print` in `main` of `show_his.py`. -/
structure PrintCall where
  msg : String
  toFile : Bool
  toConsole : Bool

/-- Run a sequence of `logger.print` calls. -/
def runPrints (calls : List PrintCall) (st : LoggerState) : LoggerState :=
  calls.foldl (fun s c => loggerPrint s c.msg c.toFile c.toConsole) st

lemma runPrints_lines : ∀ (calls : List PrintCall) (st : LoggerState),
    (runPrints calls st).lines = st.lines ++ (calls.filter (fun c => c.toFile)).map
      (fun c => c.msg) := by
  intro calls
  induction calls with
  | nil => intro st; simp [runPrints]
  | cons c rest ih =>
    intro st
    have step : runPrints (c :: rest) st = runPrints rest (loggerPrint st c.msg c.toFile c.toConsole) := rfl
    rw [step, ih]
    by_cases hf : c.toFile <;> by_cases hc : c.toConsole <;>
      simp [loggerPrint, hf, hc, List.filter_cons]

lemma runPrints_console : ∀ (calls : List PrintCall) (st : LoggerState),
    (runPrints calls st).console = st.console ++ (calls.filter (fun c => c.toConsole)).map
      (fun c => c.msg) := by
  intro calls
  induction calls with
  | nil => intro st; simp [runPrints]
  | cons c rest ih =>
    intro st
    have step : runPrints (c :: rest) st = runPrints rest (loggerPrint st c.msg c.toFile c.toConsole) := rfl
    rw [step, ih]
    by_cases hf : c.toFile <;> by_cases hc : c.toConsole <;>
      simp [loggerPrint, hf, hc, List.filter_cons]

/-- C9: a `logger.print` call with `to_file=False` (and the default
`to_console=True`) emits to the console and leaves the file buffer
unchanged; with `to_file=True` it appends to the buffer; over any call
sequence the buffer — and hence the saved Markdown file — holds exactly
the file-eligible messages in call order, and the console exactly the
console-eligible ones. -/
theorem C9_logger :
    (∀ (st : LoggerState) (m : String), (loggerPrint st m false true).lines = st.lines) ∧
    (∀ (st : LoggerState) (m : String),
        (loggerPrint st m false true).console = st.console ++ [m]) ∧
    (∀ (st : LoggerState) (m : String),
        (loggerPrint st m true true).lines = st.lines ++ [m]) ∧
    (∀ calls : List PrintCall, (runPrints calls ⟨[], []⟩).lines =
        (calls.filter (fun c => c.toFile)).map (fun c => c.msg)) ∧
    (∀ calls : List PrintCall, (runPrints calls ⟨[], []⟩).console =
        (calls.filter (fun c => c.toConsole)).map (fun c => c.msg)) ∧
    (∀ calls : List PrintCall, loggerSave (runPrints calls ⟨[], []⟩) =
        String.intercalate "\n" ((calls.filter (fun c => c.toFile)).map (fun c => c.msg))) := by
  refine ⟨?_, ?_, ?_, ?_, ?_, ?_⟩
  · intro st m; simp [loggerPrint]
  · intro st m; simp [loggerPrint]
  · intro st m; simp [loggerPrint]
  · intro calls; rw [runPrints_lines]; simp
  · intro calls; rw [runPrints_console]; simp
  · intro calls; rw [loggerSave, runPrints_lines]; simp
